import Mathlib

/-!
Verification development for the fire-ops-app repository.

The repository has two execution contexts:
* `src/service-worker.js` — the offline caching worker: an install handler
  (pre-populates a named cache store with a manifest of shell assets via
  `cache.addAll`), a fetch handler (cache-first with network fallback and
  fallback-to-cache on network failure), and an activate handler (deletes
  every named cache store not on the single-element whitelist).
* `src/app.js` — the page controller: page navigation (`showPage`), document
  viewing (`openDocument` / `closeDocument`) and PDF paging/zoom state
  (`currentPage`, `scale`, `pdfDoc`, bounded zoom via `zoomIn` / `zoomOut`).

The embedding below models requests and responses as values, the browser's
CacheStorage as an association list of named caches, and the network as a
function from requests to `Except Unit (Option Response)` (`.error` is a
rejected fetch, `.ok none` a fetch that resolved without a response — the
code's `!fetchResponse` guard, `.ok (some r)` a normal response).  Handlers
run single-threaded to completion, matching the worker's sequential handling
of one event.
-/

/-- An HTTP request, identified by its URL (exact request match). -/
structure Request where
  url : String
deriving DecidableEq

/-- A captured HTTP response: status code, response type
(`"basic"` = same-origin, `"cors"`/`"opaque"` = cross-origin), body. -/
structure Response where
  status : Nat
  rtype : String
  body : String
deriving DecidableEq

/-- One named cache: an ordered list of request → response entries. -/
abbrev Cache := List (Request × Response)

/-- The browser's CacheStorage: named cache stores. -/
abbrev CacheStorage := List (String × Cache)

/-- The network: a rejected fetch is `.error ()`, a resolved fetch carries an
optional response. -/
abbrev Network := Request → Except Unit (Option Response)

/-- `const CACHE_NAME = 'fire-ops-v1'` (src/service-worker.js line 3). -/
def CACHE_NAME : String := "fire-ops-v1"

/-- `const urlsToCache = [...]` (src/service-worker.js lines 7-14). -/
def urlsToCache : List String :=
  ["/", "/index.html", "/style.css", "/app.js", "/manifest.json"]

/-- Look a request up in one cache (first matching entry). -/
def cacheMatchIn (c : Cache) (req : Request) : Option Response :=
  match c with
  | [] => none
  | (q, r) :: rest => if q = req then some r else cacheMatchIn rest req

/-- `cache.put`: overwrite the entry for `req`, or append a new entry. -/
def cachePutIn (c : Cache) (req : Request) (r : Response) : Cache :=
  match c with
  | [] => [(req, r)]
  | (q, v) :: rest =>
    if q = req then (req, r) :: rest else (q, v) :: cachePutIn rest req r

/-- `caches.match`: search every named cache in order. -/
def cachesMatch (st : CacheStorage) (req : Request) : Option Response :=
  match st with
  | [] => none
  | (_, c) :: rest =>
    match cacheMatchIn c req with
    | some r => some r
    | none => cachesMatch rest req

/-- Find a named cache store by name. -/
def storageFind (st : CacheStorage) (name : String) : Option Cache :=
  match st with
  | [] => none
  | (n, c) :: rest => if n = name then some c else storageFind rest name

/-- Look a request up in the named cache store only. -/
def cacheGet (st : CacheStorage) (name : String) (req : Request) : Option Response :=
  match storageFind st name with
  | none => none
  | some c => cacheMatchIn c req

/-- `caches.open(name)` followed by `cache.put(req, r)`: put into the named
store, creating the store if absent. -/
def storagePut (st : CacheStorage) (name : String) (req : Request) (r : Response) :
    CacheStorage :=
  match st with
  | [] => [(name, [(req, r)])]
  | (n, c) :: rest =>
    if n = name then (n, cachePutIn c req r) :: rest
    else (n, c) :: storagePut rest name req r

/-- `caches.open(name)`: create the named store if absent. -/
def storageOpen (st : CacheStorage) (name : String) : CacheStorage :=
  match st with
  | [] => [(name, [])]
  | (n, c) :: rest => if n = name then (n, c) :: rest else (n, c) :: storageOpen rest name

/-- `caches.delete(name)`: remove the named store. -/
def storageDelete (st : CacheStorage) (name : String) : CacheStorage :=
  match st with
  | [] => []
  | (n, c) :: rest =>
    if n = name then storageDelete rest name else (n, c) :: storageDelete rest name

/-- `Response.ok` as checked by the Cache API's `addAll`: status in 200-299. -/
def responseOk (r : Response) : Bool :=
  200 ≤ r.status && r.status ≤ 299

/-- The fetch phase of `cache.addAll(urls)` (Cache API semantics, invoked at
src/service-worker.js line 25): fetch every URL; a rejected fetch, a missing
response, or a non-ok response rejects the whole operation. -/
def fetchAll (net : Network) : List String → Except Unit (List (Request × Response))
  | [] => .ok []
  | u :: rest =>
    match net ⟨u⟩ with
    | .error _ => .error ()
    | .ok none => .error ()
    | .ok (some r) =>
      if responseOk r then
        match fetchAll net rest with
        | .error _ => .error ()
        | .ok es => .ok ((⟨u⟩, r) :: es)
      else .error ()

/-- Install handler (src/service-worker.js lines 20-28):
`caches.open(CACHE_NAME).then(cache => cache.addAll(urlsToCache))`, wrapped in
`event.waitUntil` so a rejection fails the install.  `addAll` fetches every
manifest URL and, only if all succeeded with ok status, puts every entry. -/
def installSW (net : Network) (st : CacheStorage) : Except Unit CacheStorage :=
  match fetchAll net urlsToCache with
  | .error e => .error e
  | .ok entries =>
    .ok (entries.foldl (fun s e => storagePut s CACHE_NAME e.1 e.2)
          (storageOpen st CACHE_NAME))

/-- Result of one intercepted fetch: the response delivered to the page
(`none` = failed fetch), the cache storage afterwards, and whether the
network was consulted. -/
structure FetchOutcome where
  response : Option Response
  store : CacheStorage
  networkUsed : Bool
deriving DecidableEq

/-- Fetch handler (src/service-worker.js lines 34-68).
1. `caches.match(event.request)`; on a hit return the cached response.
2. On a miss, `fetch(event.request)`:
   * rejection → catch: second `caches.match` lookup, its result answers;
   * `!fetchResponse || status !== 200 || type !== 'basic'` → return the
     response as-is, uncached;
   * otherwise put a clone into `CACHE_NAME` and return the response. -/
def handleFetch (st : CacheStorage) (net : Network) (req : Request) : FetchOutcome :=
  match cachesMatch st req with
  | some response => ⟨some response, st, false⟩
  | none =>
    match net req with
    | .error _ => ⟨cachesMatch st req, st, true⟩
    | .ok none => ⟨none, st, true⟩
    | .ok (some r) =>
      if r.status ≠ 200 ∨ r.rtype ≠ "basic" then ⟨some r, st, true⟩
      else ⟨some r, storagePut st CACHE_NAME req r, true⟩

/-- Activate handler (src/service-worker.js lines 73-88) with the generation
tag as a parameter (the source fixes it to `CACHE_NAME`; bumping the tag
string is the deployment's generation transition):
`const cacheWhitelist = [tag]`, then over all of `caches.keys()`, delete every
cache whose name is not on the whitelist. -/
def activateWith (tag : String) (st : CacheStorage) : CacheStorage :=
  (st.map (fun c => c.1)).foldl
    (fun s cacheName => if cacheName ∈ [tag] then s else storageDelete s cacheName) st

/-- The activate handler exactly as in the source, at the current tag. -/
def activateSW : CacheStorage → CacheStorage := activateWith CACHE_NAME

/-- A loaded PDF document handle (the external library's object surface the
code uses: its page count). -/
structure PdfDoc where
  numPages : Nat
deriving DecidableEq

/-- The page controller's module-level mutable state (src/app.js):
`previousPage` (line 4), the currently shown page (which page holds the
`active` class after `showPage`), `pdfDoc` / `currentPage` / `scale`
(lines 35-37). -/
structure AppState where
  previousPage : String
  shownPage : String
  pdfDoc : Option PdfDoc
  currentPage : Nat
  scale : Rat
deriving DecidableEq

/-- `const MAX_SCALE = 3.0` (src/app.js line 38). -/
def MAX_SCALE : Rat := 3.0

/-- `const MIN_SCALE = 0.5` (src/app.js line 39). -/
def MIN_SCALE : Rat := 0.5

/-- `const SCALE_STEP = 0.25` (src/app.js line 40). -/
def SCALE_STEP : Rat := 0.25

/-- The state at script load: `previousPage = 'home-page'`, the home page
shown, no PDF loaded, `currentPage = 1`, `scale = 1.5`. -/
def initialState : AppState :=
  { previousPage := "home-page", shownPage := "home-page",
    pdfDoc := none, currentPage := 1, scale := 1.5 }

/-- `showPage(pageId)` (src/app.js lines 10-27): make `pageId` the active
page; remember it in `previousPage` only when it is not `'viewer-page'`. -/
def showPage (st : AppState) (pageId : String) : AppState :=
  let st := { st with shownPage := pageId }
  if pageId ≠ "viewer-page" then { st with previousPage := pageId } else st

/-- `split(sep)` on a character list: JS `String.prototype.split` with a
single-character separator (`"".split('.') = [""]`, `"a.".split('.') =
`["a",""]`). -/
def splitOnChar (sep : Char) : List Char → List (List Char)
  | [] => [[]]
  | c :: rest =>
    let r := splitOnChar sep rest
    if c = sep then [] :: r
    else (c :: r.headD []) :: r.tail

/-- `documentPath.split('.').pop().toLowerCase()` (src/app.js line 65). -/
def extensionOf (path : String) : String :=
  ⟨((splitOnChar '.' path.data).getLastD []).map Char.toLower⟩

/-- `openDocument(documentPath)` (src/app.js lines 46-85): show the viewer
page; an image path touches no PDF state; a PDF path resets `currentPage` to 1
and loads the PDF (`loadResult` is the external library's outcome: on success
`pdfDoc` is set, on failure — caught at lines 101-104 — it is left alone). -/
def openDocument (st : AppState) (path : String) (loadResult : Option PdfDoc) :
    AppState :=
  let st := showPage st "viewer-page"
  let ext := extensionOf path
  if ext = "png" ∨ ext = "jpg" ∨ ext = "jpeg" then st
  else
    let st := { st with currentPage := 1 }
    match loadResult with
    | some doc => { st with pdfDoc := some doc }
    | none => st

/-- `nextPage()` (src/app.js lines 147-154): no-op without a document or on
the last page, else advance. -/
def nextPage (st : AppState) : AppState :=
  match st.pdfDoc with
  | none => st
  | some doc =>
    if st.currentPage ≥ doc.numPages then st
    else { st with currentPage := st.currentPage + 1 }

/-- `prevPage()` (src/app.js lines 159-166): no-op without a document or on
page 1, else go back. -/
def prevPage (st : AppState) : AppState :=
  match st.pdfDoc with
  | none => st
  | some _ =>
    if st.currentPage ≤ 1 then st
    else { st with currentPage := st.currentPage - 1 }

/-- `zoomIn()` (src/app.js lines 171-177): no-op without a document; below
`MAX_SCALE`, add `SCALE_STEP`. -/
def zoomIn (st : AppState) : AppState :=
  match st.pdfDoc with
  | none => st
  | some _ =>
    if st.scale < MAX_SCALE then { st with scale := st.scale + SCALE_STEP } else st

/-- `zoomOut()` (src/app.js lines 182-188): no-op without a document; above
`MIN_SCALE`, subtract `SCALE_STEP`. -/
def zoomOut (st : AppState) : AppState :=
  match st.pdfDoc with
  | none => st
  | some _ =>
    if st.scale > MIN_SCALE then { st with scale := st.scale - SCALE_STEP } else st

/-- `closeDocument()` (src/app.js lines 193-208): clear the PDF state
(`pdfDoc = null; currentPage = 1; scale = 1.5`), then `showPage(previousPage)`. -/
def closeDocument (st : AppState) : AppState :=
  let cleared : AppState := { st with pdfDoc := none, currentPage := 1, scale := 1.5 }
  showPage cleared st.previousPage

/-- The user-reachable operations on the page controller. -/
inductive Op where
  | navigate (pageId : String)
  | openDoc (path : String) (loadResult : Option PdfDoc)
  | closeDoc
  | nextP
  | prevP
  | zoomI
  | zoomO

/-- One operation's effect on the controller state. -/
def stepOp (st : AppState) : Op → AppState
  | .navigate pageId => showPage st pageId
  | .openDoc path lr => openDocument st path lr
  | .closeDoc => closeDocument st
  | .nextP => nextPage st
  | .prevP => prevPage st
  | .zoomI => zoomIn st
  | .zoomO => zoomOut st

/-- Run a sequence of operations from the script-load state. -/
def runOps (ops : List Op) : AppState := ops.foldl stepOp initialState

/-- The zoom scales reachable by quarter steps inside `[MIN_SCALE, MAX_SCALE]`
from the initial 1.5. -/
def scaleValues : List Rat :=
  [0.5, 0.75, 1, 1.25, 1.5, 1.75, 2, 2.25, 2.5, 2.75, 3]

example : (showPage initialState "maps-page").previousPage = "maps-page" := by decide
example : extensionOf "/docs/Guide-One.PDF" = "pdf" := by decide
example : (closeDocument (openDocument (showPage initialState "maps-page")
    "/docs/guide.pdf" (some ⟨3⟩))).previousPage = "maps-page" := by decide
example : (zoomIn { initialState with pdfDoc := some ⟨3⟩ }).scale = 1.75 := by
  simp [zoomIn, initialState, MAX_SCALE, SCALE_STEP]
  norm_num

/-! ### Cache-storage lemmas -/

theorem cacheMatchIn_cachePutIn_self (c : Cache) (req : Request) (r : Response) :
    cacheMatchIn (cachePutIn c req r) req = some r := by
  induction c with
  | nil => simp [cachePutIn, cacheMatchIn]
  | cons e rest ih =>
    obtain ⟨q, v⟩ := e
    by_cases h : q = req
    · simp [cachePutIn, cacheMatchIn, h]
    · simp [cachePutIn, cacheMatchIn, h, ih]

theorem cacheGet_storagePut_self (st : CacheStorage) (name : String) (req : Request)
    (r : Response) : cacheGet (storagePut st name req r) name req = some r := by
  induction st with
  | nil => simp [storagePut, cacheGet, storageFind, cacheMatchIn]
  | cons e rest ih =>
    obtain ⟨n, c⟩ := e
    by_cases h : n = name
    · simp [storagePut, cacheGet, storageFind, h, cacheMatchIn_cachePutIn_self]
    · simpa [storagePut, cacheGet, storageFind, h] using ih

theorem cachesMatch_cons_none {n : String} {c : Cache} {rest : CacheStorage}
    {req : Request} (h : cachesMatch ((n, c) :: rest) req = none) :
    cacheMatchIn c req = none ∧ cachesMatch rest req = none := by
  revert h
  simp only [cachesMatch]
  cases hm : cacheMatchIn c req with
  | some r => intro h; cases h
  | none => intro h; exact ⟨rfl, h⟩

theorem cachesMatch_storagePut_self (st : CacheStorage) (name : String) (req : Request)
    (r : Response) (h : cachesMatch st req = none) :
    cachesMatch (storagePut st name req r) req = some r := by
  induction st with
  | nil => simp [storagePut, cachesMatch, cacheMatchIn]
  | cons e rest ih =>
    obtain ⟨n, c⟩ := e
    obtain ⟨h1, h2⟩ := cachesMatch_cons_none h
    by_cases hn : n = name
    · simp [storagePut, cachesMatch, hn, cacheMatchIn_cachePutIn_self]
    · simp [storagePut, cachesMatch, hn, h1, ih h2]

/-! ### Fetch handler: cache-first policy -/

/-- C1: if the request is found in the cache by exact match, the fetch handler
returns the cached response, leaves the store untouched (no revalidation, no
freshness check) and never touches the network. -/
theorem fetch_hit_served_from_cache (st : CacheStorage) (net : Network) (req : Request)
    (r : Response) (hhit : cachesMatch st req = some r) :
    handleFetch st net req = ⟨some r, st, false⟩ := by
  simp [handleFetch, hhit]

theorem fetch_hit_served_from_cache_witness :
    handleFetch [(CACHE_NAME, [(⟨"/index.html"⟩, ⟨200, "basic", "<html>"⟩)])]
      (fun _ => .error ()) ⟨"/index.html"⟩ =
      ⟨some ⟨200, "basic", "<html>"⟩,
       [(CACHE_NAME, [(⟨"/index.html"⟩, ⟨200, "basic", "<html>"⟩)])], false⟩ :=
  fetch_hit_served_from_cache _ _ _ _ (by decide)

/-- C2: on a cache miss that reaches the network, the response is stored into
the cache store (keyed by the original request) exactly when it is present,
has status 200 and is same-origin (`"basic"`); otherwise — absent, non-200 or
non-basic — the response is returned as-is and the store is unchanged. -/
theorem fetch_miss_caches_iff_valid (st : CacheStorage) (net : Network) (req : Request)
    (hmiss : cachesMatch st req = none) :
    (∀ r, net req = .ok (some r) → r.status = 200 → r.rtype = "basic" →
      (handleFetch st net req).response = some r ∧
      (handleFetch st net req).store = storagePut st CACHE_NAME req r ∧
      cacheGet (handleFetch st net req).store CACHE_NAME req = some r) ∧
    (∀ r, net req = .ok (some r) → (r.status ≠ 200 ∨ r.rtype ≠ "basic") →
      (handleFetch st net req).response = some r ∧
      (handleFetch st net req).store = st) ∧
    (net req = .ok none →
      (handleFetch st net req).response = none ∧ (handleFetch st net req).store = st) := by
  refine ⟨?_, ?_, ?_⟩
  · intro r hnet hs ht
    simp [handleFetch, hmiss, hnet, hs, ht, cacheGet_storagePut_self]
  · intro r hnet hbad
    simp [handleFetch, hmiss, hnet, hbad]
  · intro hnet
    simp [handleFetch, hmiss, hnet]

theorem fetch_miss_caches_iff_valid_witness :
    ((handleFetch [] (fun _ => .ok (some ⟨200, "basic", "pdf-bytes"⟩)) ⟨"/doc.pdf"⟩).response =
        some ⟨200, "basic", "pdf-bytes"⟩ ∧
      cacheGet (handleFetch [] (fun _ => .ok (some ⟨200, "basic", "pdf-bytes"⟩))
        ⟨"/doc.pdf"⟩).store CACHE_NAME ⟨"/doc.pdf"⟩ = some ⟨200, "basic", "pdf-bytes"⟩) ∧
    ((handleFetch [] (fun _ => .ok (some ⟨200, "cors", "x"⟩)) ⟨"/doc.pdf"⟩).response =
        some ⟨200, "cors", "x"⟩ ∧
      (handleFetch [] (fun _ => .ok (some ⟨200, "cors", "x"⟩)) ⟨"/doc.pdf"⟩).store = []) := by
  constructor
  · have h := (fetch_miss_caches_iff_valid [] (fun _ => .ok (some ⟨200, "basic", "pdf-bytes"⟩))
      ⟨"/doc.pdf"⟩ (by decide)).1 ⟨200, "basic", "pdf-bytes"⟩ rfl rfl rfl
    exact ⟨h.1, h.2.2⟩
  · exact (fetch_miss_caches_iff_valid [] (fun _ => .ok (some ⟨200, "cors", "x"⟩))
      ⟨"/doc.pdf"⟩ (by decide)).2.1 ⟨200, "cors", "x"⟩ rfl (by decide)

/-- C4: on a cache miss whose network request fails, the handler answers with
a second cache lookup for the same request; since the store is unchanged that
lookup also misses, and the failure propagates (no response is delivered). -/
theorem fetch_offline_failure_propagates (st : CacheStorage) (net : Network)
    (req : Request) (hmiss : cachesMatch st req = none) (hfail : net req = .error ()) :
    (handleFetch st net req).response = cachesMatch st req ∧
    (handleFetch st net req).response = none ∧
    (handleFetch st net req).store = st := by
  simp [handleFetch, hmiss, hfail]

theorem fetch_offline_failure_propagates_witness :
    (handleFetch [(CACHE_NAME, [])] (fun _ => .error ()) ⟨"/doc.pdf"⟩).response = none :=
  (fetch_offline_failure_propagates [(CACHE_NAME, [])] (fun _ => .error ())
    ⟨"/doc.pdf"⟩ (by decide) rfl).2.1

/-- C6: store-then-lookup round-trip — after a runtime fetch of a same-origin,
status-200, non-opaque response, an identical request against the resulting
store is served from the cache (the same response) with no network call, for
any state of the network. -/
theorem runtime_cache_roundtrip (st : CacheStorage) (net net2 : Network) (req : Request)
    (r : Response) (hmiss : cachesMatch st req = none) (hnet : net req = .ok (some r))
    (hs : r.status = 200) (ht : r.rtype = "basic") :
    handleFetch (handleFetch st net req).store net2 req =
      ⟨some r, (handleFetch st net req).store, false⟩ := by
  have hstore : (handleFetch st net req).store = storagePut st CACHE_NAME req r := by
    simp [handleFetch, hmiss, hnet, hs, ht]
  rw [hstore]
  simp [handleFetch, cachesMatch_storagePut_self st CACHE_NAME req r hmiss]

theorem runtime_cache_roundtrip_witness :
    handleFetch (handleFetch [] (fun _ => .ok (some ⟨200, "basic", "pdf-bytes"⟩))
        ⟨"/doc.pdf"⟩).store (fun _ => .error ()) ⟨"/doc.pdf"⟩ =
      ⟨some ⟨200, "basic", "pdf-bytes"⟩,
       (handleFetch [] (fun _ => .ok (some ⟨200, "basic", "pdf-bytes"⟩)) ⟨"/doc.pdf"⟩).store,
       false⟩ :=
  runtime_cache_roundtrip [] _ _ ⟨"/doc.pdf"⟩ ⟨200, "basic", "pdf-bytes"⟩
    (by decide) rfl rfl rfl

/-! ### Page-controller lemmas -/

theorem showPage_shownPage (st : AppState) (p : String) : (showPage st p).shownPage = p := by
  simp only [showPage]
  split <;> rfl

theorem showPage_scale (st : AppState) (p : String) : (showPage st p).scale = st.scale := by
  simp only [showPage]
  split <;> rfl

theorem showPage_previousPage (st : AppState) (p : String) :
    (showPage st p).previousPage = if p ≠ "viewer-page" then p else st.previousPage := by
  simp only [showPage]
  split <;> simp_all

theorem openDocument_previousPage (st : AppState) (path : String) (lr : Option PdfDoc) :
    (openDocument st path lr).previousPage = st.previousPage := by
  simp only [openDocument, showPage_previousPage, showPage]
  split
  · simp
  · cases lr <;> simp

theorem openDocument_scale (st : AppState) (path : String) (lr : Option PdfDoc) :
    (openDocument st path lr).scale = st.scale := by
  simp only [openDocument, showPage]
  split
  · split <;> rfl
  · cases lr <;> split <;> rfl

theorem closeDocument_previousPage (st : AppState) :
    (closeDocument st).previousPage = st.previousPage := by
  simp only [closeDocument, showPage_previousPage]
  split <;> rfl

theorem closeDocument_shownPage (st : AppState) :
    (closeDocument st).shownPage = st.previousPage :=
  showPage_shownPage _ _

theorem closeDocument_scale (st : AppState) : (closeDocument st).scale = 1.5 :=
  showPage_scale _ _

theorem closeDocument_currentPage (st : AppState) : (closeDocument st).currentPage = 1 := by
  simp only [closeDocument, showPage]
  split <;> rfl

theorem closeDocument_pdfDoc (st : AppState) : (closeDocument st).pdfDoc = none := by
  simp only [closeDocument, showPage]
  split <;> rfl

theorem nextPage_previousPage (st : AppState) : (nextPage st).previousPage = st.previousPage := by
  cases hd : st.pdfDoc <;> simp only [nextPage, hd] <;> split <;> rfl

theorem prevPage_previousPage (st : AppState) : (prevPage st).previousPage = st.previousPage := by
  cases hd : st.pdfDoc <;> simp only [prevPage, hd] <;> split <;> rfl

theorem zoomIn_previousPage (st : AppState) : (zoomIn st).previousPage = st.previousPage := by
  cases hd : st.pdfDoc <;> simp only [zoomIn, hd] <;> split <;> rfl

theorem zoomOut_previousPage (st : AppState) : (zoomOut st).previousPage = st.previousPage := by
  cases hd : st.pdfDoc <;> simp only [zoomOut, hd] <;> split <;> rfl

theorem nextPage_scale (st : AppState) : (nextPage st).scale = st.scale := by
  cases hd : st.pdfDoc <;> simp only [nextPage, hd] <;> split <;> rfl

theorem prevPage_scale (st : AppState) : (prevPage st).scale = st.scale := by
  cases hd : st.pdfDoc <;> simp only [prevPage, hd] <;> split <;> rfl

theorem stepOp_previousPage_ne (st : AppState) (op : Op)
    (h : st.previousPage ≠ "viewer-page") : (stepOp st op).previousPage ≠ "viewer-page" := by
  cases op with
  | navigate p =>
    simp only [stepOp, showPage_previousPage]
    split <;> simp_all
  | openDoc path lr => simpa only [stepOp, openDocument_previousPage] using h
  | closeDoc => simpa only [stepOp, closeDocument_previousPage] using h
  | nextP => simpa only [stepOp, nextPage_previousPage] using h
  | prevP => simpa only [stepOp, prevPage_previousPage] using h
  | zoomI => simpa only [stepOp, zoomIn_previousPage] using h
  | zoomO => simpa only [stepOp, zoomOut_previousPage] using h

theorem foldl_previousPage_ne (ops : List Op) (st : AppState)
    (h : st.previousPage ≠ "viewer-page") :
    (ops.foldl stepOp st).previousPage ≠ "viewer-page" := by
  induction ops generalizing st with
  | nil => exact h
  | cons op rest ih => exact ih _ (stepOp_previousPage_ne st op h)

/-- C9: in every state reachable from script load, the previous-page marker
differs from `'viewer-page'` (showPage only records non-viewer pages, and the
initial value is `'home-page'`); hence `closeDocument` never navigates back to
the viewer page itself. -/
theorem previousPage_never_viewer (ops : List Op) :
    (runOps ops).previousPage ≠ "viewer-page" ∧
    (closeDocument (runOps ops)).shownPage ≠ "viewer-page" := by
  have h : (runOps ops).previousPage ≠ "viewer-page" :=
    foldl_previousPage_ne ops initialState (by decide)
  exact ⟨h, by rwa [closeDocument_shownPage]⟩

theorem zoomIn_scale_mem (st : AppState) (h : st.scale ∈ scaleValues) :
    (zoomIn st).scale ∈ scaleValues := by
  cases hd : st.pdfDoc with
  | none => simpa only [zoomIn, hd] using h
  | some doc =>
    simp only [zoomIn, hd]
    split
    · rename_i hlt
      simp only [scaleValues, List.mem_cons, List.not_mem_nil, or_false] at h ⊢
      rcases h with h | h | h | h | h | h | h | h | h | h | h <;>
        rw [h] at hlt ⊢ <;> (try norm_num [SCALE_STEP]) <;>
        (try norm_num [MAX_SCALE] at hlt)
    · exact h

theorem zoomOut_scale_mem (st : AppState) (h : st.scale ∈ scaleValues) :
    (zoomOut st).scale ∈ scaleValues := by
  cases hd : st.pdfDoc with
  | none => simpa only [zoomOut, hd] using h
  | some doc =>
    simp only [zoomOut, hd]
    split
    · rename_i hgt
      simp only [scaleValues, List.mem_cons, List.not_mem_nil, or_false] at h ⊢
      rcases h with h | h | h | h | h | h | h | h | h | h | h <;>
        rw [h] at hgt ⊢ <;> (try norm_num [SCALE_STEP]) <;>
        (try norm_num [MIN_SCALE] at hgt)
    · exact h

theorem stepOp_scale_mem (st : AppState) (op : Op) (h : st.scale ∈ scaleValues) :
    (stepOp st op).scale ∈ scaleValues := by
  cases op with
  | navigate p => simpa only [stepOp, showPage_scale] using h
  | openDoc path lr => simpa only [stepOp, openDocument_scale] using h
  | closeDoc =>
    simp only [stepOp, closeDocument_scale, scaleValues, List.mem_cons]
    norm_num
  | nextP => simpa only [stepOp, nextPage_scale] using h
  | prevP => simpa only [stepOp, prevPage_scale] using h
  | zoomI => exact zoomIn_scale_mem st h
  | zoomO => exact zoomOut_scale_mem st h

theorem foldl_scale_mem (ops : List Op) (st : AppState) (h : st.scale ∈ scaleValues) :
    (ops.foldl stepOp st).scale ∈ scaleValues := by
  induction ops generalizing st with
  | nil => exact h
  | cons op rest ih => exact ih _ (stepOp_scale_mem st op h)

theorem mem_scaleValues_bounds (q : Rat) (h : q ∈ scaleValues) :
    MIN_SCALE ≤ q ∧ q ≤ MAX_SCALE := by
  simp only [scaleValues, List.mem_cons, List.not_mem_nil, or_false] at h
  rcases h with h | h | h | h | h | h | h | h | h | h | h <;>
    rw [h] <;> constructor <;> norm_num [MIN_SCALE, MAX_SCALE]

/-- C10: the zoom scale stays within `[MIN_SCALE, MAX_SCALE]` along every
sequence of operations (navigation, open/close, paging, `zoomIn`, `zoomOut`)
from the script-load state with its initial scale 1.5: `zoomIn` is a no-op at
`MAX_SCALE`, `zoomOut` at `MIN_SCALE`, and both without a loaded document. -/
theorem scale_stays_bounded (ops : List Op) :
    MIN_SCALE ≤ (runOps ops).scale ∧ (runOps ops).scale ≤ MAX_SCALE :=
  mem_scaleValues_bounds _ (foldl_scale_mem ops initialState (by norm_num [initialState, scaleValues]))

/-- C8 counterexample: navigate to the maps page, open a PDF, close it — the
previous-page marker is `"maps-page"`, not its initial value `"home-page"`,
so document-close does not reset it. -/
theorem closeDocument_keeps_previousPage :
    (closeDocument (openDocument (showPage initialState "maps-page")
      "/docs/guide.pdf" (some ⟨3⟩))).previousPage ≠ "home-page" := by decide

/-- C8 (amended): document-close resets the PDF viewing state — loaded
document, current page number and zoom scale — to its initial values
(`none`, 1, 1.5); the previous-page marker is preserved, not reset: the app
navigates back to it. -/
theorem closeDocument_resets_pdf_state (st : AppState) :
    (closeDocument st).pdfDoc = none ∧
    (closeDocument st).currentPage = 1 ∧
    (closeDocument st).scale = 1.5 ∧
    (closeDocument st).previousPage = st.previousPage :=
  ⟨closeDocument_pdfDoc st, closeDocument_currentPage st,
   closeDocument_scale st, closeDocument_previousPage st⟩

/-! ### Install: all-or-nothing manifest population -/

theorem fetchAll_error_of_mem (net : Network) (urls : List String) (u : String)
    (hu : u ∈ urls) (hfail : net ⟨u⟩ = .error ()) : fetchAll net urls = .error () := by
  induction urls with
  | nil => cases hu
  | cons v rest ih =>
    rcases List.mem_cons.mp hu with rfl | hu'
    · simp [fetchAll, hfail]
    · simp only [fetchAll]
      cases hnv : net ⟨v⟩ with
      | error e => rfl
      | ok o =>
        cases o with
        | none => rfl
        | some r =>
          by_cases hro : responseOk r
          · simp [hro, ih hu']
          · simp [hro]

theorem fetchAll_sound (net : Network) (urls : List String) (entries : List (Request × Response))
    (hok : fetchAll net urls = .ok entries) (q : Request) (r : Response)
    (hmem : (q, r) ∈ entries) : net q = .ok (some r) ∧ responseOk r = true := by
  induction urls generalizing entries with
  | nil =>
    simp only [fetchAll] at hok
    cases hok
    cases hmem
  | cons v rest ih =>
    simp only [fetchAll] at hok
    cases hnv : net ⟨v⟩ with
    | error e => rw [hnv] at hok; cases hok
    | ok o =>
      rw [hnv] at hok
      cases o with
      | none => cases hok
      | some r0 =>
        dsimp only at hok
        by_cases hro : responseOk r0
        · rw [if_pos hro] at hok
          cases hfa : fetchAll net rest with
          | error e => rw [hfa] at hok; cases hok
          | ok es =>
            rw [hfa] at hok
            cases hok
            rcases List.mem_cons.mp hmem with h | h
            · obtain ⟨h1, h2⟩ := Prod.mk.injEq .. ▸ congrArg id h
              cases h
              exact ⟨hnv, hro⟩
            · exact ih es hfa h
        · rw [if_neg hro] at hok; cases hok

theorem fetchAll_complete (net : Network) (urls : List String)
    (entries : List (Request × Response)) (hok : fetchAll net urls = .ok entries)
    (u : String) (hu : u ∈ urls) : ∃ r, (⟨u⟩, r) ∈ entries := by
  induction urls generalizing entries with
  | nil => cases hu
  | cons v rest ih =>
    simp only [fetchAll] at hok
    cases hnv : net ⟨v⟩ with
    | error e => rw [hnv] at hok; cases hok
    | ok o =>
      rw [hnv] at hok
      cases o with
      | none => cases hok
      | some r0 =>
        dsimp only at hok
        by_cases hro : responseOk r0
        · rw [if_pos hro] at hok
          cases hfa : fetchAll net rest with
          | error e => rw [hfa] at hok; cases hok
          | ok es =>
            rw [hfa] at hok
            cases hok
            rcases List.mem_cons.mp hu with rfl | hu'
            · exact ⟨r0, List.mem_cons_self _ _⟩
            · obtain ⟨r, hr⟩ := ih es hfa hu'
              exact ⟨r, List.mem_cons_of_mem _ hr⟩
        · rw [if_neg hro] at hok; cases hok

theorem cacheMatchIn_cachePutIn_other (c : Cache) (req' : Request) (r' : Response)
    (req : Request) (h : req' ≠ req) :
    cacheMatchIn (cachePutIn c req' r') req = cacheMatchIn c req := by
  induction c with
  | nil => simp [cachePutIn, cacheMatchIn, h]
  | cons e rest ih =>
    obtain ⟨q, v⟩ := e
    by_cases hq : q = req'
    · subst hq
      simp [cachePutIn, cacheMatchIn, h]
    · simp [cachePutIn, cacheMatchIn, hq, ih]

theorem cacheGet_storagePut_other (s : CacheStorage) (name : String) (req' : Request)
    (r' : Response) (req : Request) (h : req' ≠ req) :
    cacheGet (storagePut s name req' r') name req = cacheGet s name req := by
  induction s with
  | nil => simp [storagePut, cacheGet, storageFind, cacheMatchIn, h]
  | cons e rest ih =>
    obtain ⟨n, c⟩ := e
    by_cases hn : n = name
    · simp [storagePut, cacheGet, storageFind, hn, cacheMatchIn_cachePutIn_other c req' r' req h]
    · simpa [storagePut, cacheGet, storageFind, hn] using ih

theorem foldPut_get_of_not_key (entries : List (Request × Response)) (s : CacheStorage)
    (name : String) (req : Request) (h : ∀ e ∈ entries, e.1 ≠ req) :
    cacheGet (entries.foldl (fun acc e => storagePut acc name e.1 e.2) s) name req =
      cacheGet s name req := by
  induction entries generalizing s with
  | nil => rfl
  | cons e rest ih =>
    rw [List.foldl_cons, ih _ (fun e' he' => h e' (List.mem_cons_of_mem _ he')),
      cacheGet_storagePut_other s name e.1 e.2 req (h e (List.mem_cons_self _ _))]

theorem foldPut_get_of_mem (entries : List (Request × Response)) (s : CacheStorage)
    (name : String) (req : Request) (r : Response) (hmem : (req, r) ∈ entries)
    (huniq : ∀ r', (req, r') ∈ entries → r' = r) :
    cacheGet (entries.foldl (fun acc e => storagePut acc name e.1 e.2) s) name req =
      some r := by
  induction entries generalizing s with
  | nil => cases hmem
  | cons e rest ih =>
    by_cases hk : ∃ r', (req, r') ∈ rest
    · obtain ⟨r', hr'⟩ := hk
      obtain rfl : r' = r := huniq r' (List.mem_cons_of_mem _ hr')
      exact ih _ hr' (fun r'' h'' => huniq r'' (List.mem_cons_of_mem _ h''))
    · push_neg at hk
      have he : e = (req, r) := by
        rcases List.mem_cons.mp hmem with h | h
        · exact h.symm
        · exact absurd h (hk r)
      subst he
      rw [List.foldl_cons]
      have hrest : ∀ e' ∈ rest, e'.1 ≠ req := by
        intro e' he' hcontra
        exact hk e'.2 (by rwa [← hcontra, Prod.mk.eta])
      rw [foldPut_get_of_not_key rest _ name req hrest, cacheGet_storagePut_self]

/-- C5: install is all-or-nothing — if fetching any single manifest entry
fails, `cache.addAll` rejects, `event.waitUntil` sees the rejection, and the
entire install fails (no partially populated cache becomes current). -/
theorem install_all_or_nothing (net : Network) (st : CacheStorage) (u : String)
    (hu : u ∈ urlsToCache) (hfail : net ⟨u⟩ = .error ()) :
    installSW net st = .error () := by
  simp [installSW, fetchAll_error_of_mem net urlsToCache u hu hfail]

theorem install_all_or_nothing_witness :
    installSW (fun _ => .error ()) [] = .error () :=
  install_all_or_nothing (fun _ => .error ()) [] "/style.css" (by decide) rfl

/-- C7: after a successful install, every manifest path is retrievable from
the current cache store with a success-status response. -/
theorem install_populates_manifest (net : Network) (st st' : CacheStorage)
    (hst : installSW net st = .ok st') (u : String) (hu : u ∈ urlsToCache) :
    ∃ r, cacheGet st' CACHE_NAME ⟨u⟩ = some r ∧ responseOk r = true := by
  unfold installSW at hst
  cases hfa : fetchAll net urlsToCache with
  | error e => rw [hfa] at hst; cases hst
  | ok entries =>
    rw [hfa] at hst
    cases hst
    obtain ⟨r, hr⟩ := fetchAll_complete net urlsToCache entries hfa u hu
    have hsound := fetchAll_sound net urlsToCache entries hfa ⟨u⟩ r hr
    have huniq : ∀ r', (⟨u⟩, r') ∈ entries → r' = r := by
      intro r' h'
      have h1 := (fetchAll_sound net urlsToCache entries hfa ⟨u⟩ r' h').1
      rw [hsound.1] at h1
      cases h1
      rfl
    exact ⟨r, foldPut_get_of_mem entries _ CACHE_NAME ⟨u⟩ r hr huniq, hsound.2⟩

theorem install_populates_manifest_witness :
    ∃ r, cacheGet [(CACHE_NAME,
        [(⟨"/"⟩, ⟨200, "basic", "ok"⟩), (⟨"/index.html"⟩, ⟨200, "basic", "ok"⟩),
         (⟨"/style.css"⟩, ⟨200, "basic", "ok"⟩), (⟨"/app.js"⟩, ⟨200, "basic", "ok"⟩),
         (⟨"/manifest.json"⟩, ⟨200, "basic", "ok"⟩)])] CACHE_NAME ⟨"/style.css"⟩ =
        some r ∧ responseOk r = true :=
  install_populates_manifest (fun _ => .ok (some ⟨200, "basic", "ok"⟩)) [] _ rfl
    "/style.css" (by decide)

/-! ### Activation: stale-generation cleanup -/

theorem storageDelete_sublist (s : CacheStorage) (name : String) :
    List.Sublist (storageDelete s name) s := by
  induction s with
  | nil => exact List.Sublist.refl _
  | cons e rest ih =>
    obtain ⟨n, c⟩ := e
    by_cases hn : n = name
    · simpa [storageDelete, hn] using ih.cons (n, c)
    · simpa [storageDelete, hn] using ih.cons₂ (n, c)

theorem storageDelete_name_ne (s : CacheStorage) (name : String) :
    ∀ c ∈ storageDelete s name, c.1 ≠ name := by
  induction s with
  | nil => intro c hc; cases hc
  | cons e rest ih =>
    obtain ⟨n, cc⟩ := e
    intro c hc
    by_cases hn : n = name
    · exact ih c (by simpa [storageDelete, hn] using hc)
    · rw [storageDelete] at hc
      rcases List.mem_cons.mp (by simpa [hn] using hc) with rfl | h
      · exact hn
      · exact ih c h

theorem activate_fold_sublist (tag : String) (names : List String) (s : CacheStorage) :
    List.Sublist
      (names.foldl (fun acc cacheName =>
        if cacheName ∈ [tag] then acc else storageDelete acc cacheName) s) s := by
  induction names generalizing s with
  | nil => exact List.Sublist.refl _
  | cons n rest ih =>
    rw [List.foldl_cons]
    refine (ih _).trans ?_
    by_cases hn : n ∈ [tag]
    · rw [if_pos hn]
    · rw [if_neg hn]
      exact storageDelete_sublist s n

theorem activate_fold_name_ne (tag : String) (names : List String) (s : CacheStorage)
    (n : String) (hn : n ∈ names) (hne : n ≠ tag) :
    ∀ c ∈ names.foldl (fun acc cacheName =>
      if cacheName ∈ [tag] then acc else storageDelete acc cacheName) s, c.1 ≠ n := by
  induction names generalizing s with
  | nil => cases hn
  | cons m rest ih =>
    rw [List.foldl_cons]
    rcases List.mem_cons.mp hn with rfl | hn'
    · intro c hc
      have hmem : c ∈ storageDelete s n := by
        refine (activate_fold_sublist tag rest _).subset ?_
        simpa [hne] using hc
      exact storageDelete_name_ne s n c hmem
    · exact ih _ hn'

theorem activateWith_names (tag : String) (st : CacheStorage) :
    ∀ c ∈ activateWith tag st, c.1 = tag := by
  intro c hc
  unfold activateWith at hc
  by_contra hne
  have hmem : c ∈ st :=
    (activate_fold_sublist tag (st.map (fun c => c.1)) st).subset hc
  have hname : c.1 ∈ st.map (fun c => c.1) := List.mem_map_of_mem _ hmem
  exact activate_fold_name_ne tag (st.map (fun c => c.1)) st c.1 hname hne c hc rfl

theorem storageFind_eq_none (s : CacheStorage) (name : String)
    (h : ∀ c ∈ s, c.1 ≠ name) : storageFind s name = none := by
  induction s with
  | nil => rfl
  | cons e rest ih =>
    obtain ⟨n, cc⟩ := e
    have hn : n ≠ name := h (n, cc) (List.mem_cons_self _ _)
    simp only [storageFind, if_neg hn]
    exact ih (fun c hc => h c (List.mem_cons_of_mem _ hc))

theorem cachesMatch_some_mem (s : CacheStorage) (req : Request) (r : Response)
    (h : cachesMatch s req = some r) : ∃ c ∈ s, cacheMatchIn c.2 req = some r := by
  induction s with
  | nil => cases h
  | cons e rest ih =>
    obtain ⟨n, cc⟩ := e
    rw [cachesMatch] at h
    cases hm : cacheMatchIn cc req with
    | some r' =>
      rw [hm] at h
      cases h
      exact ⟨(n, cc), List.mem_cons_self _ _, hm⟩
    | none =>
      rw [hm] at h
      obtain ⟨c, hc, hcm⟩ := ih h
      exact ⟨c, List.mem_cons_of_mem _ hc, hcm⟩

theorem length_le_one_of_const_names (s : CacheStorage) (tag : String)
    (hall : ∀ c ∈ s, c.1 = tag) (hnd : (s.map (fun c => c.1)).Nodup) : s.length ≤ 1 := by
  match s with
  | [] => simp
  | [c] => simp
  | c1 :: c2 :: t =>
    exfalso
    have h1 : c1.1 = tag := hall c1 (List.mem_cons_self _ _)
    have h2 : c2.1 = tag := hall c2 (List.mem_cons_of_mem _ (List.mem_cons_self _ _))
    rw [List.map_cons, List.map_cons, List.nodup_cons] at hnd
    exact hnd.1 (by rw [h1, h2]; exact List.mem_cons_self _ _)

/-- C3: activation at generation tag `g2` deletes every cache store whose name
is not `g2`: for any other generation `g1` its store is gone, every surviving
store is named `g2` (so, names being unique, at most one store remains
current), and anything still retrievable comes from a `g2`-named store that
already existed — no entry retrievable only from `g1`'s store survives. -/
theorem activation_purges_stale_generations (st : CacheStorage) (g1 g2 : String)
    (hne : g1 ≠ g2) :
    storageFind (activateWith g2 st) g1 = none ∧
    (∀ c ∈ activateWith g2 st, c.1 = g2) ∧
    (∀ req r, cachesMatch (activateWith g2 st) req = some r →
      ∃ c ∈ st, c.1 = g2 ∧ cacheMatchIn c.2 req = some r) ∧
    ((st.map (fun c => c.1)).Nodup → (activateWith g2 st).length ≤ 1) := by
  have hall := activateWith_names g2 st
  refine ⟨?_, hall, ?_, ?_⟩
  · refine storageFind_eq_none _ _ (fun c hc => ?_)
    rw [hall c hc]
    exact fun h => hne h.symm
  · intro req r h
    obtain ⟨c, hc, hm⟩ := cachesMatch_some_mem _ req r h
    have hc' : c ∈ st := by
      rw [activateWith] at hc
      exact (activate_fold_sublist g2 (st.map (fun c => c.1)) st).subset hc
    exact ⟨c, hc', hall c hc, hm⟩
  · intro hnd
    refine length_le_one_of_const_names _ g2 hall ?_
    have hsub : List.Sublist (activateWith g2 st) st := by
      rw [activateWith]
      exact activate_fold_sublist g2 (st.map (fun c => c.1)) st
    exact hnd.sublist (List.Sublist.map _ hsub)

theorem activation_purges_stale_generations_witness :
    storageFind (activateWith "fire-ops-v1"
      [("fire-ops-v0", [(⟨"/old.pdf"⟩, ⟨200, "basic", "old"⟩)]), ("fire-ops-v1", [])])
      "fire-ops-v0" = none :=
  (activation_purges_stale_generations
    [("fire-ops-v0", [(⟨"/old.pdf"⟩, ⟨200, "basic", "old"⟩)]), ("fire-ops-v1", [])]
    "fire-ops-v0" "fire-ops-v1" (by decide)).1
